import Mathlib

/-!
Shallow embedding of the WMS catalog-item data model of this repository:
`GetCapabilitiesStratum` and `WebMapServiceCatalogItem`
(src/lib/ReactViews/MobileModalWindow.jsx, second embedded document) and
`mixGroupTraits` (src/lib/Traits/mixGroupTraits.ts).

Stateful code (the stratum's observable `capabilities`/`isLoading` pair) is
embedded as explicit state passing; every `runInAction` batch of the source
becomes one observable snapshot in an explicit trace, matching MobX's
single-threaded batched-mutation semantics.  Injected collaborators that are
not under src/ (the capabilities-document parser, the URL proxy, the string
decoder) are function parameters, and parts of the repository that the source
imports but that are not under src/ (containsAny, the trait machinery, the
createTransformer memoization cache) are modelled from the spec, each marked
in its doc comment.
-/

namespace TerriaWMS

/-- Boolean test that `p` is a prefix of `l` (explicit recursion so that the
kernel can evaluate it on literals). -/
def listIsPre : List Char → List Char → Bool
  | [], _ => true
  | _ :: _, [] => false
  | a :: as, b :: bs => if a = b then listIsPre as bs else false

/-- Boolean test that `p` occurs contiguously anywhere inside `l`. -/
def listIsInf (p : List Char) : List Char → Bool
  | [] => listIsPre p []
  | c :: rest => listIsPre p (c :: rest) || listIsInf p rest

/-- Modelled from the spec: `containsAny` (imported by the source from
src/lib/Core/containsAny, which is not under src/).  Per the source's own
doc comment on `abstractsToIgnore`: true when any of the candidate strings
occurs anywhere in the text. -/
def containsAny (text : String) (l : List String) : Bool :=
  l.any fun s => listIsInf s.toList text.toList

/-- Splitting a character list at every comma; embeds JavaScript
`String.prototype.split(',')` (so `[]` maps to `[[]]`, and separators at the
ends produce empty fields). -/
def splitCharList : List Char → List (List Char)
  | [] => [[]]
  | c :: rest =>
    if c = ',' then [] :: splitCharList rest
    else
      match splitCharList rest with
      | [] => [[c]]
      | g :: gs => (c :: g) :: gs

/-- JavaScript `s.split(',')` on strings. -/
def splitComma (s : String) : List String :=
  (splitCharList s.toList).map (fun cs => String.mk cs)

/-- The test `/^none$/i.test s` of the source: `s` equals "none" up to case. -/
def lowerEqNone (s : String) : Bool :=
  s.toList.map Char.toLower = "none".toList

/-- Lookup in an association list keyed by strings (JavaScript `Map.get` /
keyed-object indexing). -/
def assocLookup {α : Type} : List (String × α) → String → Option α
  | [], _ => none
  | (k, e) :: rest, t => if k = t then some e else assocLookup rest t

/-- Removal of every binding of a key from an association list. -/
def removeKey {α : Type} : List (String × α) → String → List (String × α)
  | [], _ => []
  | (k, e) :: rest, t =>
    if k = t then removeKey rest t else (k, e) :: removeKey rest t

/-- Removal of every occurrence of a string from a list. -/
def removeAll (x : String) : List String → List String
  | [] => []
  | y :: ys => if y = x then removeAll x ys else y :: removeAll x ys

/-- Key list of a JavaScript `Map` built from a pair list: duplicate keys keep
their first position (later pairs only overwrite the value, which in the
source is a function of the key alone).  Keeping the head and removing its
later occurrences from the deduplicated tail is exactly keep-first
deduplication. -/
def firstKeys : List String → List String
  | [] => []
  | x :: xs => x :: removeAll x (firstKeys xs)

/-- The structured error type of src/lib/Core/TerriaError as used by the
source: a title and a message. -/
structure TerriaError where
  title : String
  message : String
deriving DecidableEq

/-- The value of the `layers` trait of the catalog item: in the source it can
be undefined, a comma-separated string, or an array of strings. -/
inductive LayersTrait where
  | undef
  | str (s : String)
  | arr (l : List String)
deriving DecidableEq

/-- JavaScript `this.layers || ''` as used when constructing the imagery
provider: undefined is replaced by the empty string, everything else (the
empty string gives the empty string back, and arrays, even empty ones, are
truthy) is kept. -/
def jsOrEmpty : LayersTrait → LayersTrait
  | .undef => .str ""
  | .str s => .str s
  | .arr l => .arr l

/-- JavaScript truthiness of an optional string: undefined and the empty
string are falsy. -/
def jsTruthy : Option String → Option String
  | none => none
  | some s => if s = "" then none else some s

/-- The `OnlineResource` node of a WMS style's legend-URL entry; the source
reads its `xlink:href` attribute, which may be absent. -/
structure OnlineResource where
  xlinkHref : Option String
deriving DecidableEq

/-- One `LegendURL` record of a capabilities style: an optional
`OnlineResource` and an optional MIME `Format`. -/
structure WMSLegendURL where
  OnlineResource : Option OnlineResource
  Format : Option String
deriving DecidableEq

/-- The raw `LegendURL` property of a style: absent, a single record, or an
array of records (the source branches on `isReadOnlyArray`). -/
inductive LegendURLValue where
  | undef
  | single (u : WMSLegendURL)
  | arr (l : List WMSLegendURL)
deriving DecidableEq

/-- A style of the capabilities document, with the fields the source reads. -/
structure CapabilitiesStyle where
  Name : String
  Title : String
  Abstract : Option String
  LegendURL : LegendURLValue
deriving DecidableEq

/-- A layer of the capabilities document, with the fields the source reads. -/
structure CapabilitiesLayer where
  Name : String
  Title : String
  Abstract : Option String
deriving DecidableEq

/-- Service-level metadata of the capabilities document. -/
structure CapabilitiesService where
  Abstract : Option String
  AccessConstraints : Option String
deriving DecidableEq

/-- Modelled from the spec: the loaded capabilities document
(src/lib/Models/WebMapServiceCapabilities is not under src/).  Per spec §6 it
exposes lookup of a named layer, inherited-value lookup across a layer's
ancestor chain (here specialised to `Style`, the only key the source uses),
and service-level metadata. -/
structure WebMapServiceCapabilities where
  findLayer : String → Option CapabilitiesLayer
  getStyles : CapabilitiesLayer → List CapabilitiesStyle
  Service : Option CapabilitiesService

/-- An abstract geographic rectangle (the source never inspects coordinates;
they only flow from `getRectangleFromLayer` into the imagery provider). -/
structure Rectangle where
  west : Int
  south : Int
  east : Int
  north : Int
deriving DecidableEq

/-- The observable state of `GetCapabilitiesStratum`: the loaded payload and
the loading flag. -/
structure StratumState where
  capabilities : Option WebMapServiceCapabilities
  isLoading : Bool

/-- The configuration of a `WebMapServiceCatalogItem` read by the embedded
operations: `url` and `layers` are traits of the item; `getCapabilitiesUrl`,
`opacity` and `show` are resolved by mixins that are not under src/, so they
appear here as plain inputs. -/
structure ItemConfig where
  url : Option String
  getCapabilitiesUrl : Option String
  layers : LayersTrait
  opacity : Option Rat
  showFlag : Option Bool

/-- The fixed `defaultParameters` object of `WebMapServiceCatalogItem`. -/
structure WMSParameters where
  transparent : Bool
  format : String
  exceptions : String
  styles : String
  tiled : Bool
deriving DecidableEq

/-- The static `WebMapServiceCatalogItem.defaultParameters`. -/
def defaultParameters : WMSParameters :=
  ⟨true, "image/png", "application/vnd.ogc.se_xml", "", true⟩

/-- The tiling scheme passed to the imagery provider (always a fresh
`WebMercatorTilingScheme` in the source). -/
inductive TilingScheme where
  | webMercator
deriving DecidableEq

/-- The value content of the `WebMapServiceImageryProvider` the source
constructs (identity of provider instances is tracked separately by the
memoization model). -/
structure ImageryProvider where
  url : String
  layers : LayersTrait
  parameters : WMSParameters
  tilingScheme : TilingScheme
  maximumLevel : Nat
  rectangle : Option Rectangle
deriving DecidableEq

/-- One entry of `mapItems`: the `ImageryParts` descriptor
`{imageryProvider, alpha, show}` (the `show` field is named `showLayer`
because `show` is reserved in Lean). -/
structure ImageryParts where
  imageryProvider : ImageryProvider
  alpha : Option Rat
  showLayer : Bool

/-- A legend URL as exposed by `legendUrls`: URL string plus optional MIME
type. -/
structure LegendUrl where
  url : String
  mimeType : Option String
deriving DecidableEq

/-- One entry of the derived `availableStyles` dictionary. -/
structure WebMapServiceStyle where
  name : String
  title : String
  abstract : Option String
  legendUrl : Option LegendUrl
deriving DecidableEq

/-- Modelled from the spec: an info section
(`InfoSectionTraits` of src/lib/Traits/mixCatalogMemberTraits is not under
src/); the source assigns exactly a `name` and a `content`. -/
structure InfoSectionTraits where
  name : String
  content : String
deriving DecidableEq

/-- The static `WebMapServiceCatalogItem.abstractsToIgnore`. -/
def abstractsToIgnore : List String :=
  ["A compliant implementation of WMS"]

/-- The `layersArray` getter of `WebMapServiceCatalogItem`: arrays pass
through, truthy (non-empty) strings are comma-split, everything else is
empty. -/
def layersArray : LayersTrait → List String
  | .arr l => l
  | .str s => if s = "" then [] else splitComma s
  | .undef => []

/-- The `capabilitiesLayers` getter of `GetCapabilitiesStratum`: a JavaScript
`Map` from each selected layer name to
`this.capabilities && this.capabilities.findLayer(name)`, embedded as its
entry list (duplicate keys keep first position; the value is a function of
the key alone). -/
def capabilitiesLayers (item : ItemConfig) (st : StratumState) :
    List (String × Option CapabilitiesLayer) :=
  (firstKeys (layersArray item.layers)).map
    (fun name => (name, st.capabilities.bind (fun c => c.findLayer name)))

/-- The `isReadOnlyArray(style.LegendURL) ? style.LegendURL[0] : style.LegendURL`
step of `availableStyles` (indexing an empty array yields undefined). -/
def wmsLegendUrlOf : LegendURLValue → Option WMSLegendURL
  | .undef => none
  | .single u => some u
  | .arr l => l.head?

/-- The per-style body of `availableStyles`: builds the derived style record,
resolving the legend URL only when the `OnlineResource` and a truthy
`xlink:href` are present; `decode` embeds the injected `decodeURIComponent`
and `uriToStr` the `new URI(...).toString()` re-serialization. -/
def styleToWMSStyle (decode uriToStr : String → String)
    (style : CapabilitiesStyle) : WebMapServiceStyle :=
  let legendUrl : Option LegendUrl :=
    match wmsLegendUrlOf style.LegendURL with
    | none => none
    | some w =>
      match w.OnlineResource with
      | none => none
      | some res =>
        match res.xlinkHref with
        | none => none
        | some href =>
          if href = "" then none
          else some ⟨uriToStr (decode href), w.Format⟩
  ⟨style.Name, style.Title, style.Abstract, legendUrl⟩

/-- The `availableStyles` getter of `GetCapabilitiesStratum` as a keyed
dictionary: empty when no capabilities are loaded; otherwise one entry per
`capabilitiesLayers` key, holding the mapped styles of that layer (the
inherited `Style` values, or `[]` when the layer was not found). -/
def availableStyles (decode uriToStr : String → String)
    (item : ItemConfig) (st : StratumState) :
    String → Option (List WebMapServiceStyle) :=
  match st.capabilities with
  | none => fun _ => none
  | some cap =>
    fun layerName =>
      match assocLookup (capabilitiesLayers item st) layerName with
      | none => none
      | some layerOpt =>
        let styles :=
          match layerOpt with
          | some layer => cap.getStyles layer
          | none => []
        some (styles.map (styleToWMSStyle decode uriToStr))

/-- The inner `getLegendUrlsForLayer` of the `legendUrls` getter: the defined
legend URLs of the styles recorded for the layer, or `[]` when
`availableStyles` has no entry for it. -/
def getLegendUrlsForLayer (layer : String)
    (avail : String → Option (List WebMapServiceStyle)) : List LegendUrl :=
  match avail layer with
  | none => []
  | some styles => styles.filterMap (fun s => s.legendUrl)

/-- The `legendUrls` getter of `WebMapServiceCatalogItem`: concatenation of
the per-selected-layer legend URL lists. -/
def legendUrls (decode uriToStr : String → String)
    (item : ItemConfig) (st : StratumState) : List LegendUrl :=
  ((layersArray item.layers).map
    (fun layer =>
      getLegendUrlsForLayer layer (availableStyles decode uriToStr item st))).flatten

/-- The layer loop of the `info` getter: walks the `capabilitiesLayers`
values, skipping undefined layers, falsy abstracts and abstracts containing
an ignored string, and otherwise emits a "Data Description" section (with a
`- Title` suffix unless there is exactly one entry); also returns
`firstDataDescription`, the abstract of the first emitted section. -/
def infoLayerLoop (size1 : Bool) :
    List (Option CapabilitiesLayer) → List InfoSectionTraits × Option String
  | [] => ([], none)
  | layerOpt :: rest =>
    match layerOpt with
    | none => infoLayerLoop size1 rest
    | some layer =>
      match jsTruthy layer.Abstract with
      | none => infoLayerLoop size1 rest
      | some abs =>
        if containsAny abs abstractsToIgnore then infoLayerLoop size1 rest
        else
          let tail := infoLayerLoop size1 rest
          (⟨"Data Description" ++ (if size1 then "" else " - " ++ layer.Title),
            abs⟩ :: tail.1,
           some abs)

/-- The service part of the `info` getter: a "Service Description" section
when the service abstract is truthy, not ignored, and differs from
`firstDataDescription`; and an "Access Constraints" section when the access
constraints are truthy and not (case-insensitively) "none". -/
def serviceInfo (fdd : Option String) :
    Option WebMapServiceCapabilities → List InfoSectionTraits
  | none => []
  | some cap =>
    match cap.Service with
    | none => []
    | some service =>
      (match jsTruthy service.Abstract with
       | none => []
       | some sAbs =>
         if containsAny sAbs abstractsToIgnore = false ∧ fdd ≠ some sAbs then
           [⟨"Service Description", sAbs⟩]
         else []) ++
      (match jsTruthy service.AccessConstraints with
       | none => []
       | some ac =>
         if lowerEqNone ac then [] else [⟨"Access Constraints", ac⟩])

/-- The `info` getter of `GetCapabilitiesStratum`: the layer sections followed
by the service sections. -/
def info (item : ItemConfig) (st : StratumState) : List InfoSectionTraits :=
  let entries := capabilitiesLayers item st
  let loopRes := infoLayerLoop (entries.length == 1) (entries.map (fun p => p.2))
  loopRes.1 ++ serviceInfo loopRes.2 st.capabilities

/-- The `rectangle` getter of `GetCapabilitiesStratum`: the defined values of
`capabilitiesLayers`, and `getRectangleFromLayer` (injected here as
`getRect`, since src/lib/Models/WebMapServiceCapabilities is not under src/)
applied to the first of them, or undefined when there is none. -/
def rectangle (getRect : CapabilitiesLayer → Option Rectangle)
    (item : ItemConfig) (st : StratumState) : Option Rectangle :=
  match (capabilitiesLayers item st).filterMap (fun p => p.2) with
  | [] => none
  | layer :: _ => getRect layer

/-- The settled result of `loadCapabilities`: a configuration rejection with
a `TerriaError`, a propagated rejection of the injected fetch, or
resolution. -/
inductive LoadOutcome (ε : Type) where
  | rejected (e : TerriaError)
  | rejectedFetch (e : ε)
  | resolved
deriving DecidableEq

/-- The `loadCapabilities` method of `GetCapabilitiesStratum`, embedded as a
function from the start state to (settled outcome, trace of observable
states, final state).  Each `runInAction` batch of the source contributes one
snapshot to the trace (MobX batches are atomic under the single-threaded
scheduling of spec §5).  `proxy` embeds the injected `proxyCatalogItemUrl`
(with its cache-duration argument folded in) and `fetch` the injected
`WebMapServiceCapabilities.fromUrl`.  The source first batches
`isLoading := true; capabilities := undefined`, then rejects when
`getCapabilitiesUrl` is undefined, and otherwise runs the fetch; on success
it batches `capabilities := result; isLoading := false`; the promise chain
has no rejection handler, so a fetch rejection propagates with no further
state mutation. -/
def loadCapabilities {ε : Type} (proxy : String → String)
    (fetch : String → Except ε WebMapServiceCapabilities)
    (item : ItemConfig) (_start : StratumState) :
    LoadOutcome ε × List StratumState × StratumState :=
  let s1 : StratumState := ⟨none, true⟩
  match item.getCapabilitiesUrl with
  | none =>
    (.rejected ⟨"Unable to load GetCapabilities",
      "Could not load the Web Map Service (WMS) GetCapabilities document because the catalog item does not have a `url`."⟩,
     [s1], s1)
  | some url =>
    match fetch (proxy url) with
    | .error e => (.rejectedFetch e, [s1], s1)
    | .ok caps => (.resolved, [s1, ⟨some caps, false⟩], ⟨some caps, false⟩)

/-- The `loadMetadata` method of `WebMapServiceCatalogItem`: it delegates to
the capabilities stratum's `loadCapabilities`. -/
def loadMetadata {ε : Type} (proxy : String → String)
    (fetch : String → Except ε WebMapServiceCapabilities)
    (item : ItemConfig) (start : StratumState) :
    LoadOutcome ε × List StratumState × StratumState :=
  loadCapabilities proxy fetch item start

/-- The `currentDiscreteTime` getter of the source (it returns undefined,
marked TODO there). -/
def currentDiscreteTime (_item : ItemConfig) : Option String := none

/-- The `nextDiscreteTime` getter of the source (it returns undefined, marked
TODO there). -/
def nextDiscreteTime (_item : ItemConfig) : Option String := none

/-- The compute function of `_createImageryProvider` (the value it produces
for a given stratum state, before memoization): undefined while the
capabilities stratum is loading, otherwise a `WebMapServiceImageryProvider`
built from `url || ''`, `layers || ''`, the default parameters, a
Web Mercator tiling scheme, maximum level 20 and the stratum's rectangle.
The `time` argument only keys the memoization cache; the source never reads
it while constructing the provider. -/
def createImageryProviderPure (getRect : CapabilitiesLayer → Option Rectangle)
    (item : ItemConfig) (st : StratumState) (_time : String) :
    Option ImageryProvider :=
  if st.isLoading then none
  else some ⟨item.url.getD "", jsOrEmpty item.layers, defaultParameters,
    .webMercator, 20, rectangle getRect item st⟩

/-- The `_currentImageryParts` getter: the provider for
`currentDiscreteTime || 'now'`, wrapped with the item's opacity and show
flag (defaulting to shown), or undefined when the provider is undefined. -/
def currentImageryParts (getRect : CapabilitiesLayer → Option Rectangle)
    (item : ItemConfig) (st : StratumState) : Option ImageryParts :=
  match createImageryProviderPure getRect item st
      ((jsTruthy (currentDiscreteTime item)).getD "now") with
  | none => none
  | some p => some ⟨p, item.opacity, item.showFlag.getD true⟩

/-- The `_nextImageryParts` getter: defined only when `nextDiscreteTime` is
truthy, with alpha 0 for temporal prefetch. -/
def nextImageryParts (getRect : CapabilitiesLayer → Option Rectangle)
    (item : ItemConfig) (st : StratumState) : Option ImageryParts :=
  match jsTruthy (nextDiscreteTime item) with
  | none => none
  | some t =>
    match createImageryProviderPure getRect item st t with
    | none => none
    | some p => some ⟨p, some 0, true⟩

/-- The `mapItems` getter: current then next imagery parts, each pushed only
when defined. -/
def mapItems (getRect : CapabilitiesLayer → Option Rectangle)
    (item : ItemConfig) (st : StratumState) : List ImageryParts :=
  (match currentImageryParts getRect item st with
   | some c => [c]
   | none => []) ++
  (match nextImageryParts getRect item st with
   | some n => [n]
   | none => [])

/-- The observable inputs `_createImageryProvider` depends on besides its
`time` key: the stratum's loading flag, the item's url and layers traits,
and the stratum's derived rectangle (spec §5: the memoization key must be
derived from all inputs that affect construction). -/
structure BuilderInputs where
  isLoading : Bool
  url : Option String
  layers : LayersTrait
  rectangle : Option Rectangle
deriving DecidableEq

/-- The builder inputs read from a given item configuration and stratum
state. -/
def builderInputs (getRect : CapabilitiesLayer → Option Rectangle)
    (item : ItemConfig) (st : StratumState) : BuilderInputs :=
  ⟨st.isLoading, item.url, item.layers, rectangle getRect item st⟩

/-- The compute function of the transformer expressed over its recorded
inputs. -/
def buildFromInputs (i : BuilderInputs) (_time : String) :
    Option ImageryProvider :=
  if i.isLoading then none
  else some ⟨i.url.getD "", jsOrEmpty i.layers, defaultParameters,
    .webMercator, 20, i.rectangle⟩

/-- One entry of the memoization cache: the inputs it was computed from, the
identity of the constructed object (an allocation number, standing for
JavaScript object identity), and the constructed value. -/
structure CacheEntry where
  inputs : BuilderInputs
  objId : Nat
  value : Option ImageryProvider
deriving DecidableEq

/-- Modelled from the spec: the `createTransformer` memoization cache of
`_createImageryProvider` (mobx-utils is not under src/).  Entries are keyed
by the discrete-time argument; `fresh` is the next allocation number.  Per
spec §4.5 and §5, an entry is reused while the inputs it was computed from
are unchanged and is invalidated and rebuilt when any of them changes. -/
structure MemoCache where
  entries : List (String × CacheEntry)
  fresh : Nat
deriving DecidableEq

/-- Requesting the memoized builder at key `time` with current inputs `i`:
a hit whose recorded inputs equal `i` returns the cached object unchanged;
otherwise the entry is (re)built with a fresh object identity. -/
def requestProvider (i : BuilderInputs) (time : String) (c : MemoCache) :
    (Nat × Option ImageryProvider) × MemoCache :=
  match assocLookup c.entries time with
  | some e =>
    if e.inputs = i then ((e.objId, e.value), c)
    else
      ((c.fresh, buildFromInputs i time),
       ⟨(time, ⟨i, c.fresh, buildFromInputs i time⟩) :: removeKey c.entries time,
        c.fresh + 1⟩)
  | none =>
    ((c.fresh, buildFromInputs i time),
     ⟨(time, ⟨i, c.fresh, buildFromInputs i time⟩) :: removeKey c.entries time,
      c.fresh + 1⟩)

/-- Well-formedness of the cache: every recorded object identity was
allocated before `fresh`. -/
def CacheWF (c : MemoCache) : Prop :=
  ∀ p ∈ c.entries, p.2.objId < c.fresh

/-- Coherence of the cache: every entry's value is the compute function
applied to its recorded inputs and key. -/
def CacheCoherent (c : MemoCache) : Prop :=
  ∀ p ∈ c.entries, p.2.value = buildFromInputs p.2.inputs p.1

/-- The value type of a trait definition: a primitive type name (as in
`primitiveTrait({type: 'boolean'})`) or a model-reference array with its
factory (as in `modelReferenceArrayTrait({factory: CatalogMemberFactory})`). -/
inductive TraitType where
  | primitive (typeName : String)
  | modelReferenceArray (factoryName : String)
deriving DecidableEq

/-- One trait definition: the property key it is attached to plus the
decorator metadata (human-readable name, description, value type). -/
structure TraitDefinition where
  key : String
  name : String
  description : String
  type : TraitType
deriving DecidableEq

/-- Modelled from the spec: a trait schema class as its ordered list of
recognized trait definitions (`ModelTraits`, `primitiveTrait` and
`modelReferenceArrayTrait` are not under src/; spec §4.1: mixin composition
appends the added properties after the base's). -/
structure TraitsSchema where
  traits : List TraitDefinition
deriving DecidableEq

/-- The `isOpen` trait declared by `mixGroupTraits`
(src/lib/Traits/mixGroupTraits.ts). -/
def isOpenTrait : TraitDefinition :=
  ⟨"isOpen", "Is Open",
   "True if this group is open and its contents are visible; otherwise, false.",
   .primitive "boolean"⟩

/-- The `members` trait declared by `mixGroupTraits`. -/
def membersTrait : TraitDefinition :=
  ⟨"members", "Members", "The members of this group.",
   .modelReferenceArray "CatalogMemberFactory"⟩

/-- `mixGroupTraits` (src/lib/Traits/mixGroupTraits.ts): extends the base
schema class with the `isOpen` and `members` trait definitions, in that
order, after the base's. -/
def mixGroupTraits (base : TraitsSchema) : TraitsSchema :=
  ⟨base.traits ++ [isOpenTrait, membersTrait]⟩

/-- The recognized property keys of a schema, in declaration order. -/
def recognizedKeys (s : TraitsSchema) : List String :=
  s.traits.map (fun t => t.key)

/-! ## Shared lemmas -/

theorem assocLookup_eq_some_mem {α : Type} {l : List (String × α)} {t : String}
    {e : α} (h : assocLookup l t = some e) : (t, e) ∈ l := by
  induction l with
  | nil => simp [assocLookup] at h
  | cons p rest ih =>
    obtain ⟨k, v⟩ := p
    by_cases hk : k = t
    · subst hk
      simp [assocLookup] at h
      subst h
      exact List.mem_cons_self _ _
    · simp [assocLookup, hk] at h
      exact List.mem_cons_of_mem _ (ih h)

theorem mem_removeKey {α : Type} {l : List (String × α)} {t : String}
    {p : String × α} (h : p ∈ removeKey l t) : p ∈ l := by
  induction l with
  | nil => simp [removeKey] at h
  | cons q rest ih =>
    obtain ⟨k, v⟩ := q
    by_cases hk : k = t
    · simp only [removeKey, if_pos hk] at h
      exact List.mem_cons_of_mem _ (ih h)
    · simp only [removeKey, if_neg hk] at h
      rcases List.mem_cons.mp h with h1 | h2
      · exact h1 ▸ List.mem_cons_self _ _
      · exact List.mem_cons_of_mem _ (ih h2)

theorem assocLookup_removeKey_ne {α : Type} (l : List (String × α))
    {t t2 : String} (h : t2 ≠ t) :
    assocLookup (removeKey l t) t2 = assocLookup l t2 := by
  induction l with
  | nil => rfl
  | cons q rest ih =>
    obtain ⟨k, v⟩ := q
    by_cases hk : k = t
    · subst hk
      rw [removeKey, if_pos rfl, ih, assocLookup, if_neg (fun hh => h hh.symm)]
    · by_cases hk2 : k = t2
      · subst hk2
        rw [removeKey, if_neg hk, assocLookup, if_pos rfl, assocLookup, if_pos rfl]
      · rw [removeKey, if_neg hk, assocLookup, if_neg hk2, assocLookup,
          if_neg hk2, ih]

theorem requestProvider_lookup_self (i : BuilderInputs) (t : String)
    (c : MemoCache) :
    assocLookup ((requestProvider i t c).2).entries t =
      some ⟨i, (requestProvider i t c).1.1, (requestProvider i t c).1.2⟩ := by
  unfold requestProvider
  cases hl : assocLookup c.entries t with
  | none => simp [assocLookup]
  | some e =>
    by_cases he : e.inputs = i
    · obtain ⟨ei, eid, ev⟩ := e
      simp only at he
      subst he
      simp [hl]
    · simp [he, assocLookup]

theorem requestProvider_wf {c : MemoCache} (hwf : CacheWF c)
    (i : BuilderInputs) (t : String) : CacheWF (requestProvider i t c).2 := by
  unfold requestProvider
  cases hl : assocLookup c.entries t with
  | none =>
    intro p hp
    rcases List.mem_cons.mp hp with h1 | h2
    · subst h1; exact Nat.lt_succ_self _
    · exact Nat.lt_succ_of_lt (hwf _ (mem_removeKey h2))
  | some e =>
    by_cases he : e.inputs = i
    · simpa [he] using hwf
    · simp only [he, if_false]
      intro p hp
      rcases List.mem_cons.mp hp with h1 | h2
      · subst h1; exact Nat.lt_succ_self _
      · exact Nat.lt_succ_of_lt (hwf _ (mem_removeKey h2))

theorem requestProvider_id_lt {c : MemoCache} (hwf : CacheWF c)
    (i : BuilderInputs) (t : String) :
    (requestProvider i t c).1.1 < ((requestProvider i t c).2).fresh := by
  unfold requestProvider
  cases hl : assocLookup c.entries t with
  | none => simp
  | some e =>
    by_cases he : e.inputs = i
    · simpa [he] using hwf _ (assocLookup_eq_some_mem hl)
    · simp [he]

theorem requestProvider_coherent {c : MemoCache} (hco : CacheCoherent c)
    (i : BuilderInputs) (t : String) :
    (requestProvider i t c).1.2 = buildFromInputs i t ∧
      CacheCoherent (requestProvider i t c).2 := by
  unfold requestProvider
  cases hl : assocLookup c.entries t with
  | none =>
    refine ⟨rfl, ?_⟩
    intro p hp
    rcases List.mem_cons.mp hp with h1 | h2
    · subst h1; rfl
    · exact hco _ (mem_removeKey h2)
  | some e =>
    by_cases he : e.inputs = i
    · refine ⟨?_, by simpa [he] using hco⟩
      have := hco _ (assocLookup_eq_some_mem hl)
      simpa [he] using this
    · refine ⟨by simp [he], ?_⟩
      simp only [he, if_false]
      intro p hp
      rcases List.mem_cons.mp hp with h1 | h2
      · subst h1; rfl
      · exact hco _ (mem_removeKey h2)

theorem infoLayerLoop_not_ignored (size1 : Bool)
    (ls : List (Option CapabilitiesLayer)) :
    ∀ e ∈ (infoLayerLoop size1 ls).1,
      containsAny e.content abstractsToIgnore = false := by
  induction ls with
  | nil => intro e he; simp [infoLayerLoop] at he
  | cons layerOpt rest ih =>
    intro e he
    cases layerOpt with
    | none => exact ih e (by simpa [infoLayerLoop] using he)
    | some layer =>
      cases hab : jsTruthy layer.Abstract with
      | none => exact ih e (by simpa [infoLayerLoop, hab] using he)
      | some abs =>
        by_cases hig : containsAny abs abstractsToIgnore
        · exact ih e (by simpa [infoLayerLoop, hab, hig] using he)
        · simp only [infoLayerLoop, hab, if_neg hig] at he
          rcases List.mem_cons.mp he with h1 | h2
          · subst h1
            exact Bool.eq_false_iff.mpr hig
          · exact ih e h2

theorem serviceInfo_names (fdd : Option String)
    (capOpt : Option WebMapServiceCapabilities) :
    ∀ e ∈ serviceInfo fdd capOpt,
      e.name = "Service Description" ∨ e.name = "Access Constraints" := by
  intro e he
  cases capOpt with
  | none => simp [serviceInfo] at he
  | some cap =>
    cases hs : cap.Service with
    | none => simp [serviceInfo, hs] at he
    | some service =>
      simp only [serviceInfo, hs] at he
      rcases List.mem_append.mp he with h1 | h2
      · cases hab : jsTruthy service.Abstract with
        | none => simp [hab] at h1
        | some sAbs =>
          simp only [hab] at h1
          split at h1
          · rcases List.mem_singleton.mp h1 with rfl
            exact Or.inl rfl
          · simp at h1
      · cases hac : jsTruthy service.AccessConstraints with
        | none => simp [hac] at h2
        | some ac =>
          simp only [hac] at h2
          split at h2
          · simp at h2
          · rcases List.mem_singleton.mp h2 with rfl
            exact Or.inr rfl

theorem filterMap_head_removeAll {α : Type} (f : String → Option α)
    {x : String} (hx : f x = none) (xs : List String) :
    ((removeAll x xs).filterMap f).head? = (xs.filterMap f).head? := by
  induction xs with
  | nil => rfl
  | cons y ys ih =>
    by_cases hy : y = x
    · subst hy
      rw [removeAll, if_pos rfl]
      simp only [List.filterMap_cons, hx]
      exact ih
    · rw [removeAll, if_neg hy]
      cases hf : f y with
      | none =>
        simp only [List.filterMap_cons, hf]
        exact ih
      | some a => simp only [List.filterMap_cons, hf, List.head?_cons]

theorem firstKeys_filterMap_head {α : Type} (f : String → Option α) :
    ∀ xs : List String,
      ((firstKeys xs).filterMap f).head? = (xs.filterMap f).head? := by
  intro xs
  induction xs with
  | nil => rfl
  | cons x ys ih =>
    rw [firstKeys]
    cases hf : f x with
    | none =>
      simp only [List.filterMap_cons, hf]
      rw [filterMap_head_removeAll f hf, ih]
    | some a => simp only [List.filterMap_cons, hf, List.head?_cons]

theorem createImageryProviderPure_eq_build
    (getRect : CapabilitiesLayer → Option Rectangle) (item : ItemConfig)
    (st : StratumState) (t : String) :
    createImageryProviderPure getRect item st t =
      buildFromInputs (builderInputs getRect item st) t := by
  cases h : st.isLoading <;>
    simp [createImageryProviderPure, buildFromInputs, builderInputs, h]

/-! ## Concrete fixtures used by witnesses and counterexamples -/

/-- A catalog item with no URL configured at all. -/
def itemNoUrl : ItemConfig := ⟨none, none, .undef, none, none⟩

/-- A catalog item with a URL and a single selected layer. -/
def itemWithUrl : ItemConfig :=
  ⟨some "https://example.com/wms",
   some "https://example.com/wms?service=WMS&version=1.3.0&request=GetCapabilities",
   .str "precipitation", none, none⟩

/-- The stratum state before any load: no payload, not loading. -/
def startState : StratumState := ⟨none, false⟩

/-- The stratum state while a load is in flight. -/
def loadingState : StratumState := ⟨none, true⟩

/-- An empty capabilities document. -/
def capsEmpty : WebMapServiceCapabilities := ⟨fun _ => none, fun _ => [], none⟩

/-- A sample base schema declaring a single `url` trait. -/
def baseSchema1 : TraitsSchema :=
  ⟨[⟨"url", "URL", "The base URL of the service.", .primitive "string"⟩]⟩

/-! ## Claims -/

/-- Claim C10: `layersArray` is the layers value itself when it is an array;
the comma-split list of its substrings when it is a non-empty string; and the
empty array when `layers` is undefined or the empty string.  It is a total
function into lists, so reading the selected-layer list never fails. -/
theorem claim10_layersArray :
    (∀ l : List String, layersArray (.arr l) = l)
    ∧ (∀ s : String, s ≠ "" → layersArray (.str s) = splitComma s)
    ∧ layersArray (.str "") = []
    ∧ layersArray .undef = [] := by
  refine ⟨fun l => rfl, fun s hs => ?_, rfl, rfl⟩
  simp [layersArray, hs]

/-- Witness for C10 at the concrete layers string "a,b". -/
theorem claim10_layersArray_witness :
    ("a,b" : String) ≠ "" ∧ layersArray (.str "a,b") = ["a", "b"] :=
  ⟨by decide, (claim10_layersArray.2.1 "a,b" (by decide)).trans (by decide)⟩

/-- Claim C9: applying `mixGroupTraits` to a base schema produces a schema
whose trait list is the base's with `isOpen` and `members` appended after it,
whose recognized key set is the union of the base's keys and
{isOpen, members}, and which is a strict superset of the base (strictness
stated under the hypothesis that the base does not already declare
`isOpen`). -/
theorem claim9_mixGroupTraits (base : TraitsSchema)
    (h : "isOpen" ∉ recognizedKeys base) :
    (mixGroupTraits base).traits = base.traits ++ [isOpenTrait, membersTrait]
    ∧ (∀ k, k ∈ recognizedKeys (mixGroupTraits base) ↔
        (k ∈ recognizedKeys base ∨ k = "isOpen" ∨ k = "members"))
    ∧ (∀ k ∈ recognizedKeys base, k ∈ recognizedKeys (mixGroupTraits base))
    ∧ "isOpen" ∈ recognizedKeys (mixGroupTraits base)
    ∧ "isOpen" ∉ recognizedKeys base := by
  refine ⟨rfl, ?_, ?_, ?_, h⟩
  · intro k
    simp [recognizedKeys, mixGroupTraits, isOpenTrait, membersTrait]
  · intro k hk
    simp only [recognizedKeys, mixGroupTraits, List.map_append, List.mem_append]
    exact Or.inl hk
  · simp [recognizedKeys, mixGroupTraits, isOpenTrait]

/-- Witness for C9 at a base schema declaring a single `url` trait. -/
theorem claim9_mixGroupTraits_witness :
    "isOpen" ∉ recognizedKeys baseSchema1
    ∧ ((mixGroupTraits baseSchema1).traits =
        baseSchema1.traits ++ [isOpenTrait, membersTrait]
       ∧ (∀ k, k ∈ recognizedKeys (mixGroupTraits baseSchema1) ↔
           (k ∈ recognizedKeys baseSchema1 ∨ k = "isOpen" ∨ k = "members"))
       ∧ (∀ k ∈ recognizedKeys baseSchema1,
           k ∈ recognizedKeys (mixGroupTraits baseSchema1))
       ∧ "isOpen" ∈ recognizedKeys (mixGroupTraits baseSchema1)
       ∧ "isOpen" ∉ recognizedKeys baseSchema1) :=
  ⟨by decide, claim9_mixGroupTraits baseSchema1 (by decide)⟩

/-- Counterexample to claim C1 as stated: with no `getCapabilitiesUrl`, the
failed `loadMetadata()` call does mutate the stratum's payload state — from
the idle start state (`isLoading = false`), the final state has
`isLoading = true` (and it is never reset), so the final state differs from
the start state. -/
theorem claim1_counterexample :
    ((loadMetadata id
        (fun _ => (Except.error () : Except Unit WebMapServiceCapabilities))
        itemNoUrl startState).2.2).isLoading = true
    ∧ startState.isLoading = false
    ∧ (loadMetadata id
        (fun _ => (Except.error () : Except Unit WebMapServiceCapabilities))
        itemNoUrl startState).2.2 ≠ startState := by
  refine ⟨rfl, rfl, ?_⟩
  intro hc
  have hiso := congrArg StratumState.isLoading hc
  simp [loadMetadata, loadCapabilities, itemNoUrl, startState] at hiso

/-- Claim C1 (amended): with no `getCapabilitiesUrl`, `loadMetadata()` /
`loadCapabilities()` rejects with the structured `TerriaError` (title and
message) and the fetch never starts (the result does not depend on the
injected fetch at all) — but the call first sets `isLoading := true` and
clears `capabilities` as one batch, and these mutations are not rolled back
by the rejection: the final state has `isLoading = true` and
`capabilities = undefined`. -/
theorem claim1_missing_url {ε : Type} (proxy : String → String)
    (fetch : String → Except ε WebMapServiceCapabilities)
    (item : ItemConfig) (h : item.getCapabilitiesUrl = none)
    (start : StratumState) :
    loadMetadata proxy fetch item start =
      (.rejected ⟨"Unable to load GetCapabilities",
        "Could not load the Web Map Service (WMS) GetCapabilities document because the catalog item does not have a `url`."⟩,
       [⟨none, true⟩], ⟨none, true⟩)
    ∧ (∀ fetch2 : String → Except ε WebMapServiceCapabilities,
        loadMetadata proxy fetch2 item start =
          loadMetadata proxy fetch item start) := by
  constructor
  · simp [loadMetadata, loadCapabilities, h]
  · intro fetch2
    simp [loadMetadata, loadCapabilities, h]

/-- Witness for the amended C1 at a concrete URL-less item. -/
theorem claim1_missing_url_witness :
    itemNoUrl.getCapabilitiesUrl = none
    ∧ (loadMetadata id
        (fun _ => (Except.error () : Except Unit WebMapServiceCapabilities))
        itemNoUrl startState =
        (.rejected ⟨"Unable to load GetCapabilities",
          "Could not load the Web Map Service (WMS) GetCapabilities document because the catalog item does not have a `url`."⟩,
         [⟨none, true⟩], ⟨none, true⟩)
       ∧ (∀ fetch2 : String → Except Unit WebMapServiceCapabilities,
           loadMetadata id fetch2 itemNoUrl startState =
             loadMetadata id
               (fun _ => (Except.error () : Except Unit WebMapServiceCapabilities))
               itemNoUrl startState)) :=
  ⟨rfl, claim1_missing_url id _ itemNoUrl rfl startState⟩

/-- Counterexample to claim C2 as stated: after a load whose injected fetch
rejects, the stratum's `isLoading` does not become false — the promise chain
has no rejection handler, so `isLoading` stays true. -/
theorem claim2_counterexample :
    ¬ (((loadMetadata id
          (fun _ => (Except.error () : Except Unit WebMapServiceCapabilities))
          itemWithUrl startState).2.2).isLoading = false) := by
  decide

/-- Claim C2 (amended): when the injected fetch rejects, the rejection
propagates unchanged to the caller of `loadMetadata()`; the payload stays
undefined but `isLoading` remains true (it is not cleared); `mapItems` on the
resulting state is empty; and a subsequent `loadMetadata()` call whose fetch
succeeds completes cleanly from that state, ending with the new payload and
`isLoading = false` and no leftover partial state. -/
theorem claim2_network_failure {ε : Type} (proxy : String → String)
    (fetch : String → Except ε WebMapServiceCapabilities)
    (item : ItemConfig) (url : String)
    (hurl : item.getCapabilitiesUrl = some url)
    (e : ε) (hf : fetch (proxy url) = .error e) (start : StratumState)
    (getRect : CapabilitiesLayer → Option Rectangle) :
    (loadMetadata proxy fetch item start).1 = .rejectedFetch e
    ∧ (loadMetadata proxy fetch item start).2.2 = ⟨none, true⟩
    ∧ mapItems getRect item (loadMetadata proxy fetch item start).2.2 = []
    ∧ (∀ (fetch2 : String → Except ε WebMapServiceCapabilities)
         (caps : WebMapServiceCapabilities),
        fetch2 (proxy url) = .ok caps →
        loadMetadata proxy fetch2 item (loadMetadata proxy fetch item start).2.2 =
          (.resolved, [⟨none, true⟩, ⟨some caps, false⟩], ⟨some caps, false⟩)) := by
  have hload : loadMetadata proxy fetch item start =
      (.rejectedFetch e, [⟨none, true⟩], ⟨none, true⟩) := by
    simp [loadMetadata, loadCapabilities, hurl, hf]
  refine ⟨by rw [hload], by rw [hload], ?_, ?_⟩
  · rw [hload]
    rfl
  · intro fetch2 caps hok
    rw [hload]
    simp [loadMetadata, loadCapabilities, hurl, hok]

/-- Witness for the amended C2 at a concrete item, rejecting fetch, and
succeeding retry fetch. -/
theorem claim2_network_failure_witness :
    itemWithUrl.getCapabilitiesUrl =
      some "https://example.com/wms?service=WMS&version=1.3.0&request=GetCapabilities"
    ∧ (fun _ => (Except.error () : Except Unit WebMapServiceCapabilities))
        (id "https://example.com/wms?service=WMS&version=1.3.0&request=GetCapabilities") =
        .error ()
    ∧ ((loadMetadata id
          (fun _ => (Except.error () : Except Unit WebMapServiceCapabilities))
          itemWithUrl startState).1 = .rejectedFetch ()
       ∧ (loadMetadata id
            (fun _ => (Except.error () : Except Unit WebMapServiceCapabilities))
            itemWithUrl startState).2.2 = ⟨none, true⟩
       ∧ mapItems (fun _ => none) itemWithUrl
           (loadMetadata id
             (fun _ => (Except.error () : Except Unit WebMapServiceCapabilities))
             itemWithUrl startState).2.2 = []
       ∧ (∀ (fetch2 : String → Except Unit WebMapServiceCapabilities)
            (caps : WebMapServiceCapabilities),
           fetch2 (id "https://example.com/wms?service=WMS&version=1.3.0&request=GetCapabilities") =
             .ok caps →
           loadMetadata id fetch2 itemWithUrl
               (loadMetadata id
                 (fun _ => (Except.error () : Except Unit WebMapServiceCapabilities))
                 itemWithUrl startState).2.2 =
             (.resolved, [⟨none, true⟩, ⟨some caps, false⟩], ⟨some caps, false⟩))) :=
  ⟨rfl, rfl,
   claim2_network_failure id _ itemWithUrl _ rfl () rfl startState (fun _ => none)⟩

/-- Claim C3: a successful `loadCapabilities` run exposes exactly two
observable snapshots, one per `runInAction` batch — (payload cleared,
isLoading true) at the start and (new payload, isLoading false) at
completion — so every observable state during the load pairs
`isLoading = true` with a cleared payload and `isLoading = false` with the
new payload; no state pairs `isLoading = false` with a stale payload or a
defined payload with `isLoading = true`. -/
theorem claim3_atomic_batches {ε : Type} (proxy : String → String)
    (fetch : String → Except ε WebMapServiceCapabilities)
    (item : ItemConfig) (url : String)
    (hurl : item.getCapabilitiesUrl = some url)
    (caps : WebMapServiceCapabilities) (hf : fetch (proxy url) = .ok caps)
    (start : StratumState) :
    (loadCapabilities proxy fetch item start).2.1 =
      [⟨none, true⟩, ⟨some caps, false⟩]
    ∧ (loadCapabilities proxy fetch item start).1 = .resolved
    ∧ ∀ st ∈ (loadCapabilities proxy fetch item start).2.1,
        (st.isLoading = true → st.capabilities = none)
        ∧ (st.isLoading = false → st.capabilities = some caps) := by
  have hload : loadCapabilities proxy fetch item start =
      (.resolved, [⟨none, true⟩, ⟨some caps, false⟩], ⟨some caps, false⟩) := by
    simp [loadCapabilities, hurl, hf]
  refine ⟨by rw [hload], by rw [hload], ?_⟩
  rw [hload]
  intro st hst
  simp only [List.mem_cons, List.not_mem_nil, or_false] at hst
  rcases hst with rfl | rfl
  · exact ⟨fun _ => rfl, fun hfalse => Bool.noConfusion hfalse⟩
  · exact ⟨fun htrue => Bool.noConfusion htrue, fun _ => rfl⟩

/-- Witness for C3 at a concrete item and a fetch resolving with an empty
capabilities document. -/
theorem claim3_atomic_batches_witness :
    itemWithUrl.getCapabilitiesUrl =
      some "https://example.com/wms?service=WMS&version=1.3.0&request=GetCapabilities"
    ∧ (fun _ => (Except.ok capsEmpty : Except Unit WebMapServiceCapabilities))
        (id "https://example.com/wms?service=WMS&version=1.3.0&request=GetCapabilities") =
        .ok capsEmpty
    ∧ ((loadCapabilities id
          (fun _ => (Except.ok capsEmpty : Except Unit WebMapServiceCapabilities))
          itemWithUrl startState).2.1 =
        [⟨none, true⟩, ⟨some capsEmpty, false⟩]
       ∧ (loadCapabilities id
            (fun _ => (Except.ok capsEmpty : Except Unit WebMapServiceCapabilities))
            itemWithUrl startState).1 = .resolved
       ∧ ∀ st ∈ (loadCapabilities id
            (fun _ => (Except.ok capsEmpty : Except Unit WebMapServiceCapabilities))
            itemWithUrl startState).2.1,
           (st.isLoading = true → st.capabilities = none)
           ∧ (st.isLoading = false → st.capabilities = some capsEmpty)) :=
  ⟨rfl, rfl,
   claim3_atomic_batches id _ itemWithUrl _ rfl capsEmpty rfl startState⟩

/-- Claim C4: whenever the capabilities stratum's `isLoading` is true, the
imagery-provider builder returns undefined — both the compute function
directly and a request through the memoization cache, whatever (coherent)
entries the cache already holds — and consequently `mapItems` is the empty
list. -/
theorem claim4_loading_blocks (getRect : CapabilitiesLayer → Option Rectangle)
    (item : ItemConfig) (st : StratumState) (t : String)
    (h : st.isLoading = true) :
    createImageryProviderPure getRect item st t = none
    ∧ mapItems getRect item st = []
    ∧ ∀ c : MemoCache, CacheCoherent c →
        (requestProvider (builderInputs getRect item st) t c).1.2 = none := by
  have hb : ∀ t2, createImageryProviderPure getRect item st t2 = none :=
    fun t2 => by simp [createImageryProviderPure, h]
  refine ⟨hb t, ?_, ?_⟩
  · simp [mapItems, currentImageryParts, nextImageryParts, hb,
      nextDiscreteTime, jsTruthy]
  · intro c hc
    rw [(requestProvider_coherent hc (builderInputs getRect item st) t).1]
    simp [buildFromInputs, builderInputs, h]

/-- Witness for C4 at the loading state of a concrete item. -/
theorem claim4_loading_blocks_witness :
    loadingState.isLoading = true
    ∧ (createImageryProviderPure (fun _ => none) itemWithUrl loadingState "now" =
        none
       ∧ mapItems (fun _ => none) itemWithUrl loadingState = []
       ∧ ∀ c : MemoCache, CacheCoherent c →
           (requestProvider (builderInputs (fun _ => none) itemWithUrl loadingState)
             "now" c).1.2 = none) :=
  ⟨rfl, claim4_loading_blocks (fun _ => none) itemWithUrl loadingState "now" rfl⟩

/-- Claim C5: the memoized builder, requested twice at the same time key with
unchanged inputs, returns the identical object (same identity, same value,
cache untouched); requesting the same key after any builder input changed
returns an object with a different identity; and that rebuild leaves every
other key's cache entry unchanged. -/
theorem claim5_memoization (i i2 : BuilderInputs) (t t2 : String)
    (c : MemoCache) (hwf : CacheWF c) (hne : i2 ≠ i) (ht : t2 ≠ t) :
    requestProvider i t (requestProvider i t c).2 =
      ((requestProvider i t c).1, (requestProvider i t c).2)
    ∧ (requestProvider i2 t (requestProvider i t c).2).1.1 ≠
        (requestProvider i t c).1.1
    ∧ assocLookup ((requestProvider i2 t (requestProvider i t c).2).2).entries t2 =
        assocLookup ((requestProvider i t c).2).entries t2 := by
  have hlook := requestProvider_lookup_self i t c
  have hsame : requestProvider i t (requestProvider i t c).2 =
      ((requestProvider i t c).1, (requestProvider i t c).2) := by
    conv_lhs => rw [requestProvider]
    rw [hlook]
    simp
  have hre : requestProvider i2 t (requestProvider i t c).2 =
      (((requestProvider i t c).2.fresh, buildFromInputs i2 t),
       ⟨(t, ⟨i2, (requestProvider i t c).2.fresh, buildFromInputs i2 t⟩) ::
          removeKey ((requestProvider i t c).2).entries t,
        (requestProvider i t c).2.fresh + 1⟩) := by
    conv_lhs => rw [requestProvider]
    rw [hlook]
    simp [Ne.symm hne]
  refine ⟨hsame, ?_, ?_⟩
  · rw [hre]
    exact (Nat.ne_of_lt (requestProvider_id_lt hwf i t)).symm
  · rw [hre]
    show assocLookup ((t, _) :: removeKey ((requestProvider i t c).2).entries t) t2 =
      assocLookup ((requestProvider i t c).2).entries t2
    rw [assocLookup, if_neg (fun hh => ht hh.symm)]
    exact assocLookup_removeKey_ne _ ht

/-- Concrete builder inputs for a loaded, idle stratum. -/
def inputsA : BuilderInputs :=
  ⟨false, some "https://example.com/wms", .str "precipitation", none⟩

/-- The same inputs with the loading flag changed. -/
def inputsB : BuilderInputs :=
  ⟨true, some "https://example.com/wms", .str "precipitation", none⟩

/-- The empty memoization cache. -/
def emptyCache : MemoCache := ⟨[], 0⟩

/-- Witness for C5 at concrete inputs, keys and the empty cache. -/
theorem claim5_memoization_witness :
    CacheWF emptyCache ∧ inputsB ≠ inputsA ∧ ("next" : String) ≠ "now"
    ∧ (requestProvider inputsA "now" (requestProvider inputsA "now" emptyCache).2 =
        ((requestProvider inputsA "now" emptyCache).1,
         (requestProvider inputsA "now" emptyCache).2)
       ∧ (requestProvider inputsB "now"
            (requestProvider inputsA "now" emptyCache).2).1.1 ≠
           (requestProvider inputsA "now" emptyCache).1.1
       ∧ assocLookup ((requestProvider inputsB "now"
            (requestProvider inputsA "now" emptyCache).2).2).entries "next" =
           assocLookup ((requestProvider inputsA "now" emptyCache).2).entries
             "next") :=
  ⟨by simp [CacheWF, emptyCache], by decide, by decide,
   claim5_memoization inputsA inputsB "now" "next" emptyCache
     (by simp [CacheWF, emptyCache]) (by decide) (by decide)⟩

/-- Claim C6: for a loaded capabilities document, the stratum's rectangle is
`getRectangleFromLayer` of the first defined layer among the item's selected
layers (in selection order, not any union), and undefined when no selected
layer is found in the document. -/
theorem claim6_rectangle (getRect : CapabilitiesLayer → Option Rectangle)
    (item : ItemConfig) (st : StratumState)
    (doc : WebMapServiceCapabilities) (h : st.capabilities = some doc) :
    rectangle getRect item st =
      (((layersArray item.layers).filterMap doc.findLayer).head?).bind getRect
    ∧ ((layersArray item.layers).filterMap doc.findLayer = [] →
        rectangle getRect item st = none) := by
  have key : (capabilitiesLayers item st).filterMap (fun p => p.2) =
      (firstKeys (layersArray item.layers)).filterMap doc.findLayer := by
    simp [capabilitiesLayers, h, List.filterMap_map, Function.comp_def]
  have hhead : ((capabilitiesLayers item st).filterMap (fun p => p.2)).head? =
      ((layersArray item.layers).filterMap doc.findLayer).head? := by
    rw [key, firstKeys_filterMap_head]
  have hmain : rectangle getRect item st =
      (((layersArray item.layers).filterMap doc.findLayer).head?).bind getRect := by
    unfold rectangle
    cases hc : (capabilitiesLayers item st).filterMap (fun p => p.2) with
    | nil =>
      have hnone : ((layersArray item.layers).filterMap doc.findLayer).head? =
          none := by rw [← hhead, hc]; rfl
      rw [hnone]
      rfl
    | cons layer rest =>
      have hsome : ((layersArray item.layers).filterMap doc.findLayer).head? =
          some layer := by rw [← hhead, hc]; rfl
      rw [hsome]
      rfl
  exact ⟨hmain, fun hempty => by rw [hmain, hempty]; rfl⟩

/-- A concrete precipitation layer. -/
def layerPrecip : CapabilitiesLayer :=
  ⟨"precipitation", "Precipitation", some "Daily rainfall."⟩

/-- A concrete capabilities document containing only the precipitation
layer. -/
def capsPrecip : WebMapServiceCapabilities :=
  ⟨fun n => if n = "precipitation" then some layerPrecip else none,
   fun _ => [], none⟩

/-- The stratum state after loading `capsPrecip`. -/
def loadedState : StratumState := ⟨some capsPrecip, false⟩

/-- A concrete rectangle lookup. -/
def rectOf : CapabilitiesLayer → Option Rectangle := fun _ => some ⟨0, 0, 10, 10⟩

/-- Witness for C6 at a loaded concrete document. -/
theorem claim6_rectangle_witness :
    loadedState.capabilities = some capsPrecip
    ∧ (rectangle rectOf itemWithUrl loadedState =
        (((layersArray itemWithUrl.layers).filterMap capsPrecip.findLayer).head?).bind
          rectOf
       ∧ ((layersArray itemWithUrl.layers).filterMap capsPrecip.findLayer = [] →
           rectangle rectOf itemWithUrl loadedState = none)) :=
  ⟨rfl, claim6_rectangle rectOf itemWithUrl loadedState capsPrecip rfl⟩

/-- Claim C7: for an item whose `layers` trait is "precipitation" and a
loaded document whose "precipitation" layer has two styles of which exactly
one carries a legend URL, `legendUrls` is exactly that one legend URL, its
URL string being the decode (`decodeURIComponent`) of the raw `xlink:href`
re-serialized by the URI library, with the style's format as MIME type. -/
theorem claim7_legendUrls (decode uriToStr : String → String)
    (u g : Option String) (o : Option Rat) (sh : Option Bool)
    (layer : CapabilitiesLayer) (n1 t1 n2 t2 : String)
    (a1 a2 : Option String) (fmt : Option String) :
    legendUrls decode uriToStr ⟨u, g, .str "precipitation", o, sh⟩
      ⟨some ⟨fun n => if n = "precipitation" then some layer else none,
        fun _ =>
          [⟨n1, t1, a1,
            .single ⟨some ⟨some "https%3A%2F%2Fexample.com%2Flegend%20rain.png"⟩,
              fmt⟩⟩,
           ⟨n2, t2, a2, .arr []⟩],
        none⟩, false⟩ =
      [⟨uriToStr (decode "https%3A%2F%2Fexample.com%2Flegend%20rain.png"), fmt⟩] := by
  rfl

/-- A selected layer whose abstract is the ignored GeoServer boilerplate. -/
def layerIgnored : CapabilitiesLayer :=
  ⟨"x", "Layer X", some "zz A compliant implementation of WMS zz"⟩

/-- A capabilities document containing only `layerIgnored`. -/
def capsIgnored : WebMapServiceCapabilities :=
  ⟨fun n => if n = "x" then some layerIgnored else none, fun _ => [], none⟩

/-- An item selecting exactly the layer "x". -/
def itemX : ItemConfig := ⟨none, none, .str "x", none, none⟩

/-- The stratum state after loading `capsIgnored`. -/
def stIgnored : StratumState := ⟨some capsIgnored, false⟩

/-- Claim C8: when a selected layer's abstract contains one of the ignored
abstract strings, the derived `info` list has no "Data Description" entry
for that layer (no entry whose name starts with "Data Description" carries
that abstract as its content). -/
theorem claim8_ignored_abstract (item : ItemConfig) (st : StratumState)
    (name : String) (layer : CapabilitiesLayer) (abs : String)
    (hsel : (name, some layer) ∈ capabilitiesLayers item st)
    (habs : layer.Abstract = some abs)
    (hig : containsAny abs abstractsToIgnore = true) :
    ∀ e ∈ info item st,
      listIsPre "Data Description".toList e.name.toList = true →
      e.content ≠ abs := by
  intro e he hpre hcontra
  simp only [info] at he
  rcases List.mem_append.mp he with h1 | h2
  · have hfree := infoLayerLoop_not_ignored _ _ e h1
    rw [hcontra, hig] at hfree
    exact Bool.noConfusion hfree
  · rcases serviceInfo_names _ _ e h2 with h | h <;> rw [h] at hpre
    · exact absurd hpre (by decide)
    · exact absurd hpre (by decide)

/-- Witness for C8 at a concrete document whose only selected layer carries
the ignored abstract. -/
theorem claim8_ignored_abstract_witness :
    ("x", some layerIgnored) ∈ capabilitiesLayers itemX stIgnored
    ∧ layerIgnored.Abstract = some "zz A compliant implementation of WMS zz"
    ∧ containsAny "zz A compliant implementation of WMS zz" abstractsToIgnore =
        true
    ∧ (∀ e ∈ info itemX stIgnored,
        listIsPre "Data Description".toList e.name.toList = true →
        e.content ≠ "zz A compliant implementation of WMS zz") :=
  ⟨by decide, rfl, by decide,
   claim8_ignored_abstract itemX stIgnored "x" layerIgnored _ (by decide) rfl
     (by decide)⟩

end TerriaWMS
